import Mathlib

/-!
Verification development for an alpha-algorithm process-mining program.

The program consists of a discovery engine (`AlphaAlgorithm` in `q2.py`:
event-log loading, footprint matrix, causal/maximal/place/flow relation
extraction, Petri-net construction) and a conformance engine (`q4.py`:
fitness, precision, simplicity, synthetic trace generation).  Both are
embedded shallowly below: Python sets over strings become duplicate-free
lists (`List.dedup`), Python exceptions become `Except` values, and the
random choices of the trace generator become explicit oracle functions.
-/

namespace PM

/-- Activity labels are plain strings. -/
abbrev Label := String

/-- A trace is an ordered sequence of activity labels. -/
abbrev Trace := List Label

/-- An event log is a finite ordered collection of traces. -/
abbrev EventLog := List Trace

/-- The adjacent (direct-succession) pairs of one trace:
`(trace[i], trace[i+1])` for each `i`. -/
def adjPairs (t : Trace) : List (Label × Label) := t.zip t.tail

/-- Label `b` directly succeeds `a` somewhere in the log.  This is
`b in follows[a]` for the adjacency map built at the top of
`build_footprint_matrix`. -/
def follows (log : EventLog) (a b : Label) : Prop :=
  ∃ t ∈ log, (a, b) ∈ adjPairs t

instance (log : EventLog) (a b : Label) : Decidable (follows log a b) :=
  inferInstanceAs (Decidable (∃ t ∈ log, (a, b) ∈ adjPairs t))

/-- The four footprint symbols `||`, `->`, `<-`, `#`. -/
inductive FootRel where
  | par
  | causes
  | causedBy
  | unrelated
deriving DecidableEq, Repr

/-- The cell `matrix_data[a][b]` as built by `build_footprint_matrix`:
parallel if succession holds both ways, else causality, else reverse
causality, else no relation. -/
def footprint_cell (log : EventLog) (a b : Label) : FootRel :=
  if follows log a b ∧ follows log b a then .par
  else if follows log a b then .causes
  else if follows log b a then .causedBy
  else .unrelated

/-- The DataFrame cell `footprint_matrix.loc[a, b]`.  `pd.DataFrame` applied
to a dict of dicts takes the *outer* keys as column labels, so the stored
frame is the transpose of `matrix_data` as indexed in the construction
loop: `.loc[a, b]` reads `matrix_data[b][a]`. -/
def footprint_loc (log : EventLog) (a b : Label) : FootRel :=
  footprint_cell log b a

/-- The set `unique_events` (every label occurring in any trace),
as a duplicate-free list. -/
def unique_events (log : EventLog) : List Label :=
  (log.foldr (· ++ ·) []).dedup

/-- The set `initial_events`: first labels of the non-empty traces. -/
def initial_events (log : EventLog) : List Label :=
  (log.filterMap List.head?).dedup

/-- The set `final_events`: last labels of the non-empty traces. -/
def final_events (log : EventLog) : List Label :=
  (log.filterMap List.getLast?).dedup

/-- The set `relationships["causal"]` from `extract_relationships`: all pairs of
observed labels whose matrix lookup `footprint_matrix.loc[a, b]` reads
`"->"`. -/
def causal_rel (log : EventLog) : List (Label × Label) :=
  ((unique_events log).product (unique_events log)).filter
    (fun p => decide (footprint_loc log p.1 p.2 = .causes))

/-- The set `relationships["maximal"]`: all pairs whose matrix lookup reads `"||"`. -/
def maximal_rel (log : EventLog) : List (Label × Label) :=
  ((unique_events log).product (unique_events log)).filter
    (fun p => decide (footprint_loc log p.1 p.2 = .par))

/-- The set `relationships["places"]`: the loop `for a, b in causal: places.add((a, b))`,
one place per causal pair. -/
def places_rel (log : EventLog) : List (Label × Label) :=
  ((causal_rel log).map (fun p => (p.1, p.2))).dedup

/-- The set `relationships["flow"]`: `causal.union({(b, a) for a, b in causal})`. -/
def flow_rel (log : EventLog) : List (Label × Label) :=
  (causal_rel log ++ (causal_rel log).map (fun p => (p.2, p.1))).dedup

/-- The Petri-net dictionary assembled by `build_petri_net` and consumed by
the conformance engine.  The Python code stores each component as
`sorted(list(<set>))`; sorting only fixes the enumeration order of the set,
so each component is embedded as a duplicate-free list. -/
structure PetriNet where
  places : List (Label × Label)
  transitions : List Label
  initial_marking : List Label
  final_marking : List Label
  flow_relation : List (Label × Label)

/-- The model assembly `build_petri_net`. -/
def build_petri_net (log : EventLog) : PetriNet :=
  { places := places_rel log
    transitions := unique_events log
    initial_marking := initial_events log
    final_marking := final_events log
    flow_relation := flow_rel log }

/-! ## Conformance engine (`q4.py`) -/

/-- The marking update shared by `calculate_fitness` and
`generate_test_traces`:
`set([place[1] for place in petri_net["flow_relation"] if place[0] == event])`.
The surrounding `set(...)` only collapses duplicates and the marking is
used solely through membership tests, so the underlying list is kept. -/
def next_marking (net : PetriNet) (e : Label) : List Label :=
  (net.flow_relation.filter (fun p => decide (p.1 = e))).map Prod.snd

/-- The per-trace `trace_fitness` counter of `calculate_fitness`: walk the
trace, counting an event and advancing the marking while the event is in
the current marking, stopping at the first event that is not. -/
def replay_matched (net : PetriNet) : List Label → Trace → ℕ
  | _, [] => 0
  | m, e :: t =>
    if e ∈ m then replay_matched net (next_marking net e) t + 1 else 0

/-- The per-trace fitness contribution `trace_fitness / len(trace)`. -/
def trace_fitness (net : PetriNet) (t : Trace) : ℚ :=
  (replay_matched net net.initial_marking t : ℚ) / (t.length : ℚ)

/-- Fitness scoring `calculate_fitness`: accumulate `trace_fitness / len(trace)` and a
valid-trace counter over the non-empty traces, then average, returning 0
when no non-empty trace exists. -/
def calculate_fitness (net : PetriNet) (traces : List Trace) : ℚ :=
  let acc := traces.foldl
    (fun sn t =>
      if t = [] then sn
      else (sn.1 + (replay_matched net net.initial_marking t : ℚ) / (t.length : ℚ),
            sn.2 + 1))
    ((0 : ℚ), (0 : ℕ))
  if 0 < acc.2 then acc.1 / (acc.2 : ℚ) else 0

/-- The set `observed_behavior[a]` in `calculate_precision`: the set of labels seen
immediately after `a` anywhere in the given traces. -/
def observed_succ (traces : List Trace) (a : Label) : List Label :=
  ((((traces.map adjPairs).foldr (· ++ ·) []).filter
      (fun p => decide (p.1 = a))).map Prod.snd).dedup

/-- The keys of `allowed_behavior`: labels occurring as a source in the
flow relation. -/
def flow_sources (net : PetriNet) : List Label :=
  (net.flow_relation.map Prod.fst).dedup

/-- The set `allowed_behavior[a]`: the set of labels directly reachable from `a`
via the flow relation. -/
def allowed_succ (net : PetriNet) (a : Label) : List Label :=
  ((net.flow_relation.filter (fun p => decide (p.1 = a))).map Prod.snd).dedup

/-- Precision scoring `calculate_precision`: sum `len(observed[a]) / len(allowed[a])` over the
flow sources `a` that have at least one observed successor (`a` is a key of
`observed_behavior` exactly when that set is non-empty), then divide by the
number of flow sources, returning 0 when there are none. -/
def calculate_precision (net : PetriNet) (traces : List Trace) : ℚ :=
  let psum := ((flow_sources net).map
    (fun a =>
      if observed_succ traces a ≠ [] then
        ((observed_succ traces a).length : ℚ) / ((allowed_succ net a).length : ℚ)
      else 0)).sum
  if flow_sources net = [] then 0 else psum / ((flow_sources net).length : ℚ)

/-- The Python exception kinds raised by the embedded code. -/
inductive PyError where
  | valueError
  | typeError
  | keyError
  | zeroDivisionError
deriving DecidableEq, Repr

/-- The total count `len(places) + len(transitions) + len(flow_relation)`. -/
def model_size (net : PetriNet) : ℕ :=
  net.places.length + net.transitions.length + net.flow_relation.length

/-- Simplicity scoring `calculate_simplicity`: `1 / (num_places + num_transitions + num_arcs)`;
Python `1 / 0` raises `ZeroDivisionError`. -/
def calculate_simplicity (net : PetriNet) : Except PyError ℚ :=
  if model_size net = 0 then Except.error .zeroDivisionError
  else Except.ok (1 / (model_size net : ℚ))

/-- The list `possible_events` in `generate_test_traces`:
`[event for event in petri_net["transitions"] if event in marking]`. -/
def possible_events (net : PetriNet) (marking : List Label) : List Label :=
  net.transitions.filter (fun e => decide (e ∈ marking))

/-- One random walk of `generate_test_traces`, with the random draws made
explicit: `stop step` is `random.random() < 0.1` at loop iteration `step`,
and `pick step` indexes `random.choice` into the enabled-event list.  The
walk ends when the fuel (`max_length`) runs out, no event is enabled, or
the early-stop draw fires once `min_length` events have been emitted
(at iteration `step` the trace built so far has length `step`). -/
def gen_walk (net : PetriNet) (minLen : ℕ) (stop : ℕ → Bool) (pick : ℕ → ℕ) :
    ℕ → ℕ → List Label → List Label
  | 0, _, _ => []
  | fuel + 1, step, marking =>
    let possible := possible_events net marking
    if hp : possible = [] then []
    else if minLen ≤ step ∧ stop step = true then []
    else
      let e := possible.get ⟨pick step % possible.length,
        Nat.mod_lt _ (List.length_pos.mpr hp)⟩
      e :: gen_walk net minLen stop pick fuel (step + 1) (next_marking net e)

/-- One full trace attempt: walk from the initial marking with
`max_length` fuel. -/
def gen_trace (net : PetriNet) (maxLen minLen : ℕ)
    (stop : ℕ → Bool) (pick : ℕ → ℕ) : List Label :=
  gen_walk net minLen stop pick maxLen 0 net.initial_marking

/-- Trace synthesis `generate_test_traces`: `num_traces` walk attempts (each with its own
random draws), keeping only the non-empty results. -/
def generate_test_traces (net : PetriNet) (numTraces maxLen minLen : ℕ)
    (stop : ℕ → ℕ → Bool) (pick : ℕ → ℕ → ℕ) : List (List Label) :=
  (List.range numTraces).foldr
    (fun i acc =>
      let t := gen_trace net maxLen minLen (stop i) (pick i)
      if t = [] then acc else t :: acc)
    []

/-! ## Event-log loading (`load_event_log` in `q2.py`) -/

/-- A JSON value, as handed to `load_event_log` by `json.load`. -/
inductive JVal where
  | null
  | bool (b : Bool)
  | num (n : Int)
  | str (s : String)
  | arr (xs : List JVal)
  | obj (fields : List (String × JVal))

/-- Python truthiness, used by the `if trace` filter of the comprehension. -/
def truthy : JVal → Bool
  | .null => false
  | .bool b => b
  | .num n => decide (n ≠ 0)
  | .str s => decide (s ≠ "")
  | .arr xs => !xs.isEmpty
  | .obj fs => !fs.isEmpty

/-- Subscripting `event["task"]`: the value under key `"task"` of a dict, `KeyError` on a
dict without the key, `TypeError` when subscripting any non-dict with a
string. -/
def get_task : JVal → Except PyError JVal
  | .obj fs =>
    match fs.lookup "task" with
    | some v => Except.ok v
    | none => Except.error .keyError
  | _ => Except.error .typeError

/-- The comprehension `[event["task"] for event in trace]`, left to right, first exception
propagating. -/
def load_trace_events : List JVal → Except PyError (List JVal)
  | [] => Except.ok []
  | e :: es =>
    match get_task e with
    | Except.error err => Except.error err
    | Except.ok v =>
      match load_trace_events es with
      | Except.error err => Except.error err
      | Except.ok vs => Except.ok (v :: vs)

/-- Processing one truthy trace: iterating a non-list trace yields items
that are never dicts (characters of a string, keys of a dict, or a
`TypeError` for non-iterables), so every truthy non-list trace raises
`TypeError` at its first event. -/
def load_trace : JVal → Except PyError (List JVal)
  | .arr evs => load_trace_events evs
  | _ => Except.error .typeError

/-- The outer comprehension over the kept traces. -/
def load_traces : List JVal → Except PyError (List (List JVal))
  | [] => Except.ok []
  | t :: ts =>
    match load_trace t with
    | Except.error err => Except.error err
    | Except.ok xs =>
      match load_traces ts with
      | Except.error err => Except.error err
      | Except.ok rest => Except.ok (xs :: rest)

/-- Validation in `load_event_log`: reject a non-list or empty document with
`ValueError("Event log must be a non-empty list of traces")`, then extract
the task names of every truthy trace. -/
def load_event_log : JVal → Except PyError (List (List JVal))
  | .arr traces =>
    if traces.isEmpty then Except.error .valueError
    else load_traces (traces.filter truthy)
  | _ => Except.error .valueError

/-! ## Auxiliary notions for stating the claims -/

/-- Petri-net graph nodes with explicit place nodes, used to state claims
about arcs of the form `(source, place)` and `(place, target)`. -/
inductive Node where
  | t (l : Label)
  | p (q : Label × Label)
deriving DecidableEq, Repr

/-- The flow relation of a model viewed as node arcs: every stored pair
relates two transition labels. -/
def flow_nodes (net : PetriNet) : List (Node × Node) :=
  net.flow_relation.map (fun q => (Node.t q.1, Node.t q.2))

/-- Modelled from the spec: the flow relation the specification describes,
`causal pairs ∪ {(source, place), (place, target)} for each place`, for
comparison with the flow relation the code builds. -/
def spec_flow_nodes (net : PetriNet) : List (Node × Node) :=
  net.places.map (fun q => (Node.t q.1, Node.t q.2))
    ++ net.places.map (fun q => (Node.t q.1, Node.p q))
    ++ net.places.map (fun q => (Node.p q, Node.t q.2))

/-- Modelled from the spec: advancing the marking to the targets of the
places fed by the event, for comparison with `next_marking`. -/
def spec_next_marking (net : PetriNet) (e : Label) : List Label :=
  (net.places.filter (fun p => decide (p.1 = e))).map Prod.snd

/-- Modelled from the spec: token replay whose marking advances to the
targets of the places fed by the matched event. -/
def spec_replay_matched (net : PetriNet) : List Label → Trace → ℕ
  | _, [] => 0
  | m, e :: t =>
    if e ∈ m then spec_replay_matched net (spec_next_marking net e) t + 1 else 0

/-- Modelled from the spec: per-trace fitness under the spec's marking
advance. -/
def spec_trace_fitness (net : PetriNet) (t : Trace) : ℚ :=
  (spec_replay_matched net net.initial_marking t : ℚ) / (t.length : ℚ)

/-- Modelled from the spec: a log that is a collection of sequences, i.e. a
JSON array whose members are themselves arrays. -/
def isSeqCollection (j : JVal) : Prop :=
  ∃ ts, j = JVal.arr ts ∧ ∀ t ∈ ts, ∃ evs, t = JVal.arr evs

/-- An enabled walk: every event is in the current marking when chosen, the
marking advancing by `next_marking` after each event. -/
def IsEnabledWalk (net : PetriNet) : List Label → List Label → Prop
  | _, [] => True
  | m, e :: t => e ∈ m ∧ IsEnabledWalk net (next_marking net e) t

/-- The non-empty traces of a list, as skipped over by `calculate_fitness`. -/
def valid_traces (traces : List Trace) : List Trace :=
  traces.filter (fun t => decide (t ≠ []))

/-- The running example log of the specification. -/
def sampleLog : EventLog := [["A", "B", "D"], ["A", "C", "D"]]

/-! ## Helper lemmas -/

lemma footprint_cell_eq_causes {log : EventLog} {a b : Label} :
    footprint_cell log a b = .causes ↔ follows log a b ∧ ¬ follows log b a := by
  unfold footprint_cell
  split_ifs with h1 h2 h3 <;> simp <;> tauto

lemma footprint_cell_eq_par {log : EventLog} {a b : Label} :
    footprint_cell log a b = .par ↔ follows log a b ∧ follows log b a := by
  unfold footprint_cell
  split_ifs with h1 h2 h3 <;> simp <;> tauto

lemma footprint_cell_eq_causedBy {log : EventLog} {a b : Label} :
    footprint_cell log a b = .causedBy ↔ ¬ follows log a b ∧ follows log b a := by
  unfold footprint_cell
  split_ifs with h1 h2 h3 <;> simp <;> tauto

lemma footprint_cell_eq_unrelated {log : EventLog} {a b : Label} :
    footprint_cell log a b = .unrelated ↔ ¬ follows log a b ∧ ¬ follows log b a := by
  unfold footprint_cell
  split_ifs with h1 h2 h3 <;> simp <;> tauto

lemma mem_causal_rel {log : EventLog} {a b : Label} :
    (a, b) ∈ causal_rel log ↔
      a ∈ unique_events log ∧ b ∈ unique_events log ∧
        follows log b a ∧ ¬ follows log a b := by
  unfold causal_rel footprint_loc
  rw [List.mem_filter]
  simp only [List.pair_mem_product, decide_eq_true_eq, footprint_cell_eq_causes]
  tauto

lemma causal_rel_nodup (log : EventLog) : (causal_rel log).Nodup :=
  (((log.foldr (· ++ ·) []).nodup_dedup).product
    ((log.foldr (· ++ ·) []).nodup_dedup)).filter _

lemma places_rel_eq_causal (log : EventLog) : places_rel log = causal_rel log := by
  unfold places_rel
  rw [show (fun p : Label × Label => (p.1, p.2)) = id from funext fun p => rfl,
    List.map_id]
  exact (causal_rel_nodup log).dedup

lemma mem_flow_rel {log : EventLog} {a b : Label} :
    (a, b) ∈ flow_rel log ↔ (a, b) ∈ causal_rel log ∨ (b, a) ∈ causal_rel log := by
  unfold flow_rel
  rw [List.mem_dedup, List.mem_append, List.mem_map]
  constructor
  · rintro (h | ⟨p, hp, hpe⟩)
    · exact Or.inl h
    · cases p
      cases hpe
      exact Or.inr hp
  · rintro (h | h)
    · exact Or.inl h
    · exact Or.inr ⟨(b, a), h, rfl⟩

/-! ## Claim C3: symmetry and totality of the footprint table -/

/-- Claim C3 (confirmed): for distinct labels the footprint classification
assigns exactly one of the four symbols, and it is symmetric under
swap-and-flip: `(a,b) = →` iff `(b,a) = ←`, `(a,b) = ∥` iff `(b,a) = ∥`,
`(a,b) = #` iff `(b,a) = #`. -/
theorem footprint_symmetry (log : EventLog) (a b : Label) (_hab : a ≠ b) :
    (footprint_cell log a b = .causes ↔ footprint_cell log b a = .causedBy) ∧
    (footprint_cell log a b = .causedBy ↔ footprint_cell log b a = .causes) ∧
    (footprint_cell log a b = .par ↔ footprint_cell log b a = .par) ∧
    (footprint_cell log a b = .unrelated ↔ footprint_cell log b a = .unrelated) ∧
    (footprint_cell log a b = .causes ∨ footprint_cell log a b = .causedBy ∨
      footprint_cell log a b = .par ∨ footprint_cell log a b = .unrelated) := by
  refine ⟨?_, ?_, ?_, ?_, ?_⟩
  · rw [footprint_cell_eq_causes, footprint_cell_eq_causedBy]; tauto
  · rw [footprint_cell_eq_causedBy, footprint_cell_eq_causes]; tauto
  · rw [footprint_cell_eq_par, footprint_cell_eq_par]; tauto
  · rw [footprint_cell_eq_unrelated, footprint_cell_eq_unrelated]; tauto
  · cases h : footprint_cell log a b <;> simp

/-- Witness for C3 at the sample log and the pair (A, B). -/
theorem footprint_symmetry_witness :
    footprint_cell sampleLog "A" "B" = .causes ↔
      footprint_cell sampleLog "B" "A" = .causedBy :=
  (footprint_symmetry sampleLog "A" "B" (by decide)).1

/-! ## Claim C7: self-pairs -/

/-- Counterexample for C7 as stated: a label that directly succeeds itself
is classified `∥` with itself and the self-pair enters the maximal set. -/
theorem self_pair_parallel_counterexample :
    footprint_cell [["A", "A"]] "A" "A" = .par ∧
      ("A", "A") ∈ maximal_rel [["A", "A"]] := by decide

/-- Claim C7 (amended): self-pairs are never classified `→` and never enter
the causal set, but a label that directly succeeds itself in some trace is
classified `∥` with itself and the self-pair does enter the maximal set. -/
theorem self_pair_classification (log : EventLog) (a : Label) :
    footprint_cell log a a ≠ .causes ∧
    (a, a) ∉ causal_rel log ∧
    (footprint_cell log a a = .par ↔ follows log a a) ∧
    ((a, a) ∈ maximal_rel log ↔ a ∈ unique_events log ∧ follows log a a) := by
  refine ⟨?_, ?_, ?_, ?_⟩
  · rw [Ne, footprint_cell_eq_causes]; tauto
  · rw [mem_causal_rel]; tauto
  · rw [footprint_cell_eq_par]; tauto
  · unfold maximal_rel footprint_loc
    rw [List.mem_filter]
    simp only [List.pair_mem_product, decide_eq_true_eq, footprint_cell_eq_par]
    tauto

/-! ## Claim C2: the sample-log scenario -/

/-- Counterexample for C2 as stated: on the sample log, B and C are never
adjacent, so their footprint relation is `#` (in both the classification
matrix and its stored transpose), not `∥`; and the extracted causal set
reads the DataFrame transposed, so it contains `("B","A")` rather than the
claimed `("A","B")`. -/
theorem sample_scenario_counterexample :
    footprint_cell sampleLog "B" "C" = .unrelated ∧
    footprint_cell sampleLog "C" "B" = .unrelated ∧
    ("A", "B") ∉ causal_rel sampleLog ∧
    ("B", "A") ∈ causal_rel sampleLog := by decide

/-- Claim C2 (amended): on the sample log the unique labels are
{A, B, C, D}, A is the sole initial and D the sole final label, the
footprint classification gives `(A,B) = →`, `(A,C) = →`, `(B,C) = #`,
`(B,D) = →`, `(C,D) = →`, the extracted causal set is
{(B,A), (C,A), (D,B), (D,C)} (the reverses of the classified causal pairs,
because the extraction reads the footprint DataFrame transposed), and the
discovered model has 4 places, 4 transitions, initial marking {A} and
final marking {D}. -/
theorem sample_scenario :
    (unique_events sampleLog).toFinset = ({"A", "B", "C", "D"} : Finset Label) ∧
    (initial_events sampleLog).toFinset = ({"A"} : Finset Label) ∧
    (final_events sampleLog).toFinset = ({"D"} : Finset Label) ∧
    footprint_cell sampleLog "A" "B" = .causes ∧
    footprint_cell sampleLog "A" "C" = .causes ∧
    footprint_cell sampleLog "B" "C" = .unrelated ∧
    footprint_cell sampleLog "B" "D" = .causes ∧
    footprint_cell sampleLog "C" "D" = .causes ∧
    (causal_rel sampleLog).toFinset =
      ({("B", "A"), ("C", "A"), ("D", "B"), ("D", "C")} : Finset (Label × Label)) ∧
    (build_petri_net sampleLog).places.length = 4 ∧
    (build_petri_net sampleLog).transitions.length = 4 ∧
    (build_petri_net sampleLog).initial_marking = ["A"] ∧
    (build_petri_net sampleLog).final_marking = ["D"] := by decide

/-! ## Claim C1: shape of the flow relation around places -/

/-- Counterexample for C1 as stated: for the log `[["A","B"]]` the model has
the place `("B","A")`, the spec-described flow contains the arcs
`(source, place)` and `(place, target)` for it, but the flow relation the
code builds contains neither. -/
theorem place_arc_counterexample :
    ("B", "A") ∈ (build_petri_net [["A", "B"]]).places ∧
    (Node.t "B", Node.p ("B", "A")) ∈ spec_flow_nodes (build_petri_net [["A", "B"]]) ∧
    (Node.t "B", Node.p ("B", "A")) ∉ flow_nodes (build_petri_net [["A", "B"]]) ∧
    (Node.p ("B", "A"), Node.t "A") ∈ spec_flow_nodes (build_petri_net [["A", "B"]]) ∧
    (Node.p ("B", "A"), Node.t "A") ∉ flow_nodes (build_petri_net [["A", "B"]]) := by
  decide

/-- Claim C1 (amended): the discovered flow relation contains no arc
mentioning a place: every arc relates two transition labels, and for each
place `(a, b)` the flow relation contains the two direct arcs `(a, b)` and
`(b, a)` instead of the place-mediated arcs `(source, place)` and
`(place, target)`. -/
theorem flow_has_no_place_arcs (log : EventLog) :
    (∀ x ∈ flow_nodes (build_petri_net log), ∃ a b, x = (Node.t a, Node.t b)) ∧
    (∀ q ∈ (build_petri_net log).places,
      (Node.t q.1, Node.t q.2) ∈ flow_nodes (build_petri_net log) ∧
      (Node.t q.2, Node.t q.1) ∈ flow_nodes (build_petri_net log) ∧
      (∀ n, (n, Node.p q) ∉ flow_nodes (build_petri_net log)) ∧
      (∀ n, (Node.p q, n) ∉ flow_nodes (build_petri_net log))) := by
  constructor
  · intro x hx
    unfold flow_nodes at hx
    rw [List.mem_map] at hx
    obtain ⟨q, _, rfl⟩ := hx
    exact ⟨q.1, q.2, rfl⟩
  · intro q hq
    have hq' : q ∈ causal_rel log := by
      rwa [show (build_petri_net log).places = places_rel log from rfl,
        places_rel_eq_causal] at hq
    have h1 : (q.1, q.2) ∈ flow_rel log := by
      rw [mem_flow_rel]
      exact Or.inl hq'
    have h2 : (q.2, q.1) ∈ flow_rel log := by
      rw [mem_flow_rel]
      exact Or.inr hq'
    refine ⟨?_, ?_, ?_, ?_⟩
    · exact List.mem_map.mpr ⟨(q.1, q.2), h1, rfl⟩
    · exact List.mem_map.mpr ⟨(q.2, q.1), h2, rfl⟩
    · intro n hn
      unfold flow_nodes at hn
      rw [List.mem_map] at hn
      obtain ⟨r, _, hr⟩ := hn
      exact Node.noConfusion (congrArg Prod.snd hr)
    · intro n hn
      unfold flow_nodes at hn
      rw [List.mem_map] at hn
      obtain ⟨r, _, hr⟩ := hn
      exact Node.noConfusion (congrArg Prod.fst hr)

/-- Witness for C1 (amended) at the log `[["A","B"]]` and its single place. -/
theorem flow_has_no_place_arcs_witness :
    (Node.t "B", Node.t "A") ∈ flow_nodes (build_petri_net [["A", "B"]]) ∧
    (Node.t "A", Node.t "B") ∈ flow_nodes (build_petri_net [["A", "B"]]) :=
  ⟨((flow_has_no_place_arcs [["A", "B"]]).2 ("B", "A") (by decide)).1,
    ((flow_has_no_place_arcs [["A", "B"]]).2 ("B", "A") (by decide)).2.1⟩

/-! ## Claim C10: places and flow of the discovered model -/

/-- Claim C10 (confirmed): the discovered model's place set is exactly the
extracted causal relation set, its flow relation is the causal set united
with the reversed causal pairs, the flow relation is symmetric, and every
flow arc relates two transition labels (never a place). -/
theorem model_components (log : EventLog) :
    (build_petri_net log).places = causal_rel log ∧
    (build_petri_net log).flow_relation.toFinset =
      (causal_rel log).toFinset ∪
        ((causal_rel log).map (fun p => (p.2, p.1))).toFinset ∧
    (∀ a b : Label, (a, b) ∈ (build_petri_net log).flow_relation ↔
      (b, a) ∈ (build_petri_net log).flow_relation) ∧
    (∀ x ∈ flow_nodes (build_petri_net log), ∃ a b, x = (Node.t a, Node.t b)) := by
  refine ⟨places_rel_eq_causal log, ?_, ?_, ?_⟩
  · ext q
    simp only [show (build_petri_net log).flow_relation = flow_rel log from rfl,
      flow_rel, List.mem_toFinset, List.mem_dedup, List.mem_append, Finset.mem_union]
  · intro a b
    rw [show (build_petri_net log).flow_relation = flow_rel log from rfl,
      mem_flow_rel, mem_flow_rel]
    tauto
  · intro x hx
    unfold flow_nodes at hx
    rw [List.mem_map] at hx
    obtain ⟨q, _, rfl⟩ := hx
    exact ⟨q.1, q.2, rfl⟩

/-- Witness for C10 at the log `[["A","B"]]`. -/
theorem model_components_witness :
    ∃ a b, ((Node.t "B", Node.t "A") : Node × Node) = (Node.t a, Node.t b) :=
  (model_components [["A", "B"]]).2.2.2 (Node.t "B", Node.t "A") (by decide)

/-! ## Claim C4: token-replay fitness -/

lemma list_map_congr {α β : Type} {l : List α} {f g : α → β}
    (h : ∀ a ∈ l, f a = g a) : l.map f = l.map g := by
  induction l with
  | nil => rfl
  | cons a l ih =>
    simp only [List.map_cons, h a (List.mem_cons_self a l)]
    rw [ih (fun x hx => h x (List.mem_cons_of_mem a hx))]

lemma mem_next_marking {net : PetriNet} {e x : Label} :
    x ∈ next_marking net e ↔ (e, x) ∈ net.flow_relation := by
  unfold next_marking
  rw [List.mem_map]
  constructor
  · rintro ⟨q, hq, rfl⟩
    rw [List.mem_filter] at hq
    obtain ⟨hm, he⟩ := hq
    rw [decide_eq_true_eq] at he
    rw [← he]
    exact hm
  · intro h
    exact ⟨(e, x), List.mem_filter.mpr ⟨h, by simp⟩, rfl⟩

lemma fitness_foldl (net : PetriNet) (ts : List Trace) :
    ∀ (s : ℚ) (n : ℕ),
      ts.foldl
        (fun sn t =>
          if t = [] then sn
          else (sn.1 + (replay_matched net net.initial_marking t : ℚ) / (t.length : ℚ),
                sn.2 + 1))
        (s, n)
      = (s + ((valid_traces ts).map (trace_fitness net)).sum,
         n + (valid_traces ts).length) := by
  induction ts with
  | nil => intro s n; simp [valid_traces]
  | cons t ts ih =>
    intro s n
    by_cases ht : t = []
    · have hv : valid_traces (t :: ts) = valid_traces ts := by
        simp [valid_traces, List.filter_cons, ht]
      simp only [List.foldl_cons, if_pos ht, hv, ih]
    · have hv : valid_traces (t :: ts) = t :: valid_traces ts := by
        simp [valid_traces, List.filter_cons, ht]
      simp only [List.foldl_cons, if_neg ht, ih, hv, List.map_cons, List.sum_cons,
        List.length_cons, Prod.mk.injEq]
      constructor
      · show s + (replay_matched net net.initial_marking t : ℚ) / (t.length : ℚ) +
          ((valid_traces ts).map (trace_fitness net)).sum = _
        unfold trace_fitness
        ring
      · omega

lemma calculate_fitness_eq (net : PetriNet) (traces : List Trace) :
    calculate_fitness net traces =
      if valid_traces traces = [] then 0
      else ((valid_traces traces).map (trace_fitness net)).sum /
        ((valid_traces traces).length : ℚ) := by
  unfold calculate_fitness
  rw [fitness_foldl]
  by_cases h : valid_traces traces = []
  · simp [h]
  · have hlen : 0 < (valid_traces traces).length := List.length_pos.mpr h
    simp [h, hlen]

/-- Counterexample for C4 as stated: replaying against the model discovered
from `[["A","B"],["B","C"]]`, the trace `["A","B"]` scores fitness 1
because the marking after "A" contains "B" (a flow successor), although no
place fed by "A" has target "B"; the spec-described marking advance would
score 1/2. -/
theorem fitness_marking_counterexample :
    "B" ∈ next_marking (build_petri_net [["A", "B"], ["B", "C"]]) "A" ∧
    "B" ∉ spec_next_marking (build_petri_net [["A", "B"], ["B", "C"]]) "A" ∧
    trace_fitness (build_petri_net [["A", "B"], ["B", "C"]]) ["A", "B"] = 1 ∧
    spec_trace_fitness (build_petri_net [["A", "B"], ["B", "C"]]) ["A", "B"] = 1 / 2 := by
  refine ⟨by decide, by decide, ?_, ?_⟩
  · unfold trace_fitness
    rw [show replay_matched (build_petri_net [["A", "B"], ["B", "C"]])
        (build_petri_net [["A", "B"], ["B", "C"]]).initial_marking ["A", "B"] = 2
      from by decide]
    norm_num
  · unfold spec_trace_fitness
    rw [show spec_replay_matched (build_petri_net [["A", "B"], ["B", "C"]])
        (build_petri_net [["A", "B"], ["B", "C"]]).initial_marking ["A", "B"] = 1
      from by decide]
    norm_num

/-- Claim C4 (amended): fitness replay processes each non-empty trace from
the initial marking; a matched event increments the counter and advances
the marking to the direct flow successors of the event (for a discovered
model: the labels related to the event by a causal pair in either
direction, not only the targets of places fed by it); an unmatched event
stops the trace with the rest uncounted; per-trace fitness is
matched/length, the overall fitness is the mean over non-empty traces, and
zero non-empty traces yield 0 without dividing by zero. -/
theorem fitness_replay (net : PetriNet) (traces : List Trace) :
    (calculate_fitness net traces =
      if valid_traces traces = [] then 0
      else ((valid_traces traces).map (trace_fitness net)).sum /
        ((valid_traces traces).length : ℚ)) ∧
    (∀ (m : List Label) (e : Label) (t : Trace), e ∈ m →
      replay_matched net m (e :: t) = replay_matched net (next_marking net e) t + 1) ∧
    (∀ (m : List Label) (e : Label) (t : Trace), e ∉ m →
      replay_matched net m (e :: t) = 0) ∧
    (∀ e x : Label, x ∈ next_marking net e ↔ (e, x) ∈ net.flow_relation) ∧
    (∀ (log : EventLog) (e x : Label),
      x ∈ next_marking (build_petri_net log) e ↔
        (e, x) ∈ causal_rel log ∨ (x, e) ∈ causal_rel log) := by
  refine ⟨calculate_fitness_eq net traces, ?_, ?_, ?_, ?_⟩
  · intro m e t h
    simp [replay_matched, h]
  · intro m e t h
    simp [replay_matched, h]
  · intro e x
    exact mem_next_marking
  · intro log e x
    rw [mem_next_marking]
    exact mem_flow_rel

/-- Witness for C4 at a concrete model, marking and trace. -/
theorem fitness_replay_witness :
    replay_matched (build_petri_net [["A", "B"]]) ["A"] ["B"] = 0 :=
  (fitness_replay (build_petri_net [["A", "B"]]) []).2.2.1 ["A"] "B" [] (by decide)

/-! ## Claim C5: precision -/

lemma mem_allowed_succ {net : PetriNet} {a x : Label} :
    x ∈ allowed_succ net a ↔ (a, x) ∈ net.flow_relation := by
  unfold allowed_succ
  rw [List.mem_dedup]
  exact mem_next_marking

lemma mem_flow_sources {net : PetriNet} {a : Label} :
    a ∈ flow_sources net ↔ ∃ q ∈ net.flow_relation, q.1 = a := by
  unfold flow_sources
  rw [List.mem_dedup, List.mem_map]

/-- Claim C5 (confirmed): precision is the mean over flow-relation sources
of `|observed(a)| / |allowed(a)|` (a source with no observed successor is
skipped by the code, which is the same as contributing 0), is 0 when there
are no flow-relation sources, every flow source has a non-empty allowed
set (so no per-source division by zero occurs), and on the model of a
single-activity log it returns 0. -/
theorem precision_spec (net : PetriNet) (traces : List Trace) (log : EventLog) :
    (calculate_precision net traces =
      if flow_sources net = [] then 0
      else ((flow_sources net).map
          (fun a => ((observed_succ traces a).length : ℚ) /
            ((allowed_succ net a).length : ℚ))).sum /
        ((flow_sources net).length : ℚ)) ∧
    (∀ a ∈ flow_sources net, allowed_succ net a ≠ []) ∧
    ((unique_events log).length ≤ 1 →
      calculate_precision (build_petri_net log) traces = 0) := by
  refine ⟨?_, ?_, ?_⟩
  · unfold calculate_precision
    have hfun : ∀ a : Label,
        (if observed_succ traces a ≠ [] then
          ((observed_succ traces a).length : ℚ) / ((allowed_succ net a).length : ℚ)
        else 0) =
          ((observed_succ traces a).length : ℚ) / ((allowed_succ net a).length : ℚ) := by
      intro a
      by_cases h : observed_succ traces a = []
      · simp [h]
      · simp [h]
    simp only [hfun]
  · intro a ha
    rw [mem_flow_sources] at ha
    obtain ⟨q, hq, rfl⟩ := ha
    intro hnil
    have : q.2 ∈ allowed_succ net q.1 := mem_allowed_succ.mpr hq
    rw [hnil] at this
    exact (List.not_mem_nil q.2) this
  · intro hcard
    have huniq : ∀ x ∈ unique_events log, ∀ y ∈ unique_events log, x = y := by
      cases hu : unique_events log with
      | nil => intro x hx; exact absurd hx (List.not_mem_nil x)
      | cons z zs =>
        have hz : zs = [] := by
          rw [hu] at hcard
          simp only [List.length_cons] at hcard
          exact List.eq_nil_of_length_eq_zero (by omega)
        subst hz
        intro x hx y hy
        rw [List.mem_singleton] at hx hy
        rw [hx, hy]
    have hcausal : causal_rel log = [] := by
      rw [List.eq_nil_iff_forall_not_mem]
      rintro ⟨a, b⟩ hab
      rw [mem_causal_rel] at hab
      obtain ⟨ha, hb, hf, hnf⟩ := hab
      have : a = b := huniq a ha b hb
      rw [this] at hf hnf
      exact hnf hf
    have hflow : flow_rel log = [] := by
      unfold flow_rel
      rw [hcausal]
      rfl
    have hsrc : flow_sources (build_petri_net log) = [] := by
      unfold flow_sources build_petri_net
      simp only [hflow]
      rfl
    unfold calculate_precision
    simp [hsrc]

/-- Witness for C5 at the single-activity log `[["A"]]`. -/
theorem precision_spec_witness :
    calculate_precision (build_petri_net [["A"]]) [["A"]] = 0 :=
  (precision_spec (build_petri_net [["A"]]) [["A"]] [["A"]]).2.2 (by decide)

/-! ## Claim C9: simplicity -/

/-- Claim C9 (confirmed): simplicity is `1 / (|places| + |transitions| +
|flow_relation|)`, strictly decreasing in the total model size, and on a
completely empty model the division by zero surfaces as a signalled
`ZeroDivisionError` rather than a wrong value. -/
theorem simplicity_spec :
    (∀ net : PetriNet, model_size net ≠ 0 →
      calculate_simplicity net = Except.ok (1 / (model_size net : ℚ))) ∧
    (∀ n₁ n₂ : PetriNet, 0 < model_size n₁ → model_size n₁ < model_size n₂ →
      ∃ q₁ q₂ : ℚ, calculate_simplicity n₁ = Except.ok q₁ ∧
        calculate_simplicity n₂ = Except.ok q₂ ∧ q₂ < q₁) ∧
    (∀ net : PetriNet, model_size net = 0 →
      calculate_simplicity net = Except.error PyError.zeroDivisionError) := by
  refine ⟨?_, ?_, ?_⟩
  · intro net h
    unfold calculate_simplicity
    rw [if_neg h]
  · intro n₁ n₂ h1 h2
    refine ⟨1 / (model_size n₁ : ℚ), 1 / (model_size n₂ : ℚ), ?_, ?_, ?_⟩
    · unfold calculate_simplicity
      rw [if_neg (Nat.pos_iff_ne_zero.mp h1)]
    · unfold calculate_simplicity
      rw [if_neg (Nat.pos_iff_ne_zero.mp (h1.trans h2))]
    · exact one_div_lt_one_div_of_lt (by exact_mod_cast h1) (by exact_mod_cast h2)
  · intro net h
    unfold calculate_simplicity
    rw [if_pos h]

/-- Witness for C9: a discovered model gets its inverse size, the empty
model signals, and a larger model scores strictly less. -/
theorem simplicity_spec_witness :
    calculate_simplicity (build_petri_net [["A", "B"]]) =
      Except.ok (1 / (model_size (build_petri_net [["A", "B"]]) : ℚ)) ∧
    calculate_simplicity (PetriNet.mk [] [] [] [] []) =
      Except.error PyError.zeroDivisionError ∧
    (∃ q₁ q₂ : ℚ, calculate_simplicity (build_petri_net [["A", "B"]]) = Except.ok q₁ ∧
      calculate_simplicity (build_petri_net sampleLog) = Except.ok q₂ ∧ q₂ < q₁) :=
  ⟨simplicity_spec.1 _ (by decide), simplicity_spec.2.2 _ rfl,
    simplicity_spec.2.1 _ _ (by decide) (by decide)⟩

/-! ## Claim C6: synthetic traces replay perfectly -/

lemma mem_possible_events {net : PetriNet} {m : List Label} {e : Label} :
    e ∈ possible_events net m ↔ e ∈ net.transitions ∧ e ∈ m := by
  unfold possible_events
  rw [List.mem_filter, decide_eq_true_eq]

lemma gen_walk_enabled (net : PetriNet) (minLen : ℕ) (stop : ℕ → Bool)
    (pick : ℕ → ℕ) :
    ∀ (fuel step : ℕ) (m : List Label),
      IsEnabledWalk net m (gen_walk net minLen stop pick fuel step m) ∧
      ∀ e ∈ gen_walk net minLen stop pick fuel step m, e ∈ net.transitions := by
  intro fuel
  induction fuel with
  | zero =>
    intro step m
    exact ⟨trivial, fun e he => absurd he (List.not_mem_nil e)⟩
  | succ fuel ih =>
    intro step m
    rw [gen_walk]
    split_ifs with hp hs
    · exact ⟨trivial, fun e he => absurd he (List.not_mem_nil e)⟩
    · exact ⟨trivial, fun e he => absurd he (List.not_mem_nil e)⟩
    · have hchosen : (possible_events net m).get
          ⟨pick step % (possible_events net m).length,
            Nat.mod_lt _ (List.length_pos.mpr hp)⟩ ∈ possible_events net m :=
        List.get_mem _ _ _
      rw [mem_possible_events] at hchosen
      constructor
      · exact ⟨hchosen.2, (ih (step + 1) (next_marking net _)).1⟩
      · intro e he
        rcases List.mem_cons.mp he with rfl | hmem
        · exact hchosen.1
        · exact (ih (step + 1) (next_marking net _)).2 e hmem

lemma replay_of_enabled (net : PetriNet) :
    ∀ (t m : List Label), IsEnabledWalk net m t →
      replay_matched net m t = t.length := by
  intro t
  induction t with
  | nil => intro m _; rfl
  | cons e t ih =>
    intro m h
    have h' : e ∈ m ∧ IsEnabledWalk net (next_marking net e) t := h
    simp [replay_matched, h'.1, ih _ h'.2]

lemma trace_fitness_one {net : PetriNet} {t : Trace} (hne : t ≠ [])
    (h : IsEnabledWalk net net.initial_marking t) : trace_fitness net t = 1 := by
  unfold trace_fitness
  rw [replay_of_enabled net t _ h]
  exact div_self (Nat.cast_ne_zero.mpr
    (Nat.pos_iff_ne_zero.mp (List.length_pos.mpr hne)))

lemma calculate_fitness_all_one {net : PetriNet} {ts : List Trace} (hne : ts ≠ [])
    (h : ∀ t ∈ ts, t ≠ [] ∧ trace_fitness net t = 1) :
    calculate_fitness net ts = 1 := by
  rw [calculate_fitness_eq]
  have hv : valid_traces ts = ts := by
    unfold valid_traces
    rw [List.filter_eq_self]
    intro t ht
    exact decide_eq_true (h t ht).1
  rw [hv, if_neg hne]
  rw [list_map_congr (g := fun _ => (1 : ℚ)) (fun t ht => (h t ht).2)]
  have hsum : ∀ l : List Trace, (l.map (fun _ => (1 : ℚ))).sum = (l.length : ℚ) := by
    intro l
    induction l with
    | nil => simp
    | cons x l ih => simp [ih, add_comm]
  rw [hsum]
  exact div_self (Nat.cast_ne_zero.mpr
    (Nat.pos_iff_ne_zero.mp (List.length_pos.mpr hne)))

lemma mem_generate_test_traces {net : PetriNet} {numTraces maxLen minLen : ℕ}
    {stop : ℕ → ℕ → Bool} {pick : ℕ → ℕ → ℕ} {t : List Label} :
    t ∈ generate_test_traces net numTraces maxLen minLen stop pick →
      t ≠ [] ∧ ∃ i, t = gen_trace net maxLen minLen (stop i) (pick i) := by
  unfold generate_test_traces
  generalize List.range numTraces = l
  induction l with
  | nil => intro h; exact absurd h (List.not_mem_nil t)
  | cons i l ih =>
    simp only [List.foldr_cons]
    intro h
    by_cases hg : gen_trace net maxLen minLen (stop i) (pick i) = []
    · rw [if_pos hg] at h
      exact ih h
    · rw [if_neg hg] at h
      rcases List.mem_cons.mp h with rfl | hmem
      · exact ⟨hg, i, rfl⟩
      · exact ih hmem

/-- Claim C6 (confirmed): every trace produced by the synthesizer is
non-empty, contains only events that were enabled (present in the marking,
and drawn from the transition list) when chosen, and replays with
per-trace fitness exactly 1; hence any non-empty batch of synthetic traces
scores overall fitness exactly 1. -/
theorem synthetic_traces_fit (net : PetriNet) (numTraces maxLen minLen : ℕ)
    (stop : ℕ → ℕ → Bool) (pick : ℕ → ℕ → ℕ) :
    (∀ t ∈ generate_test_traces net numTraces maxLen minLen stop pick,
      t ≠ [] ∧ IsEnabledWalk net net.initial_marking t ∧
        (∀ e ∈ t, e ∈ net.transitions) ∧ trace_fitness net t = 1) ∧
    (generate_test_traces net numTraces maxLen minLen stop pick ≠ [] →
      calculate_fitness net
        (generate_test_traces net numTraces maxLen minLen stop pick) = 1) := by
  have hmem : ∀ t ∈ generate_test_traces net numTraces maxLen minLen stop pick,
      t ≠ [] ∧ IsEnabledWalk net net.initial_marking t ∧
        (∀ e ∈ t, e ∈ net.transitions) ∧ trace_fitness net t = 1 := by
    intro t ht
    obtain ⟨hne, i, rfl⟩ := mem_generate_test_traces ht
    have hwalk := gen_walk_enabled net minLen (stop i) (pick i) maxLen 0
      net.initial_marking
    exact ⟨hne, hwalk.1, hwalk.2, trace_fitness_one hne hwalk.1⟩
  refine ⟨hmem, fun hne => calculate_fitness_all_one hne ?_⟩
  intro t ht
  exact ⟨(hmem t ht).1, (hmem t ht).2.2.2⟩

/-- Witness for C6 at the model discovered from `[["A","B"]]`, one walk of
fuel 2 and constant random draws. -/
theorem synthetic_traces_fit_witness :
    trace_fitness (build_petri_net [["A", "B"]])
      (gen_trace (build_petri_net [["A", "B"]]) 2 3 (fun _ => false) (fun _ => 0)) = 1 ∧
    calculate_fitness (build_petri_net [["A", "B"]])
      (generate_test_traces (build_petri_net [["A", "B"]]) 1 2 3
        (fun _ _ => false) (fun _ _ => 0)) = 1 :=
  ⟨((synthetic_traces_fit (build_petri_net [["A", "B"]]) 1 2 3
      (fun _ _ => false) (fun _ _ => 0)).1 _ (by decide)).2.2.2,
    (synthetic_traces_fit (build_petri_net [["A", "B"]]) 1 2 3
      (fun _ _ => false) (fun _ _ => 0)).2 (by decide)⟩

/-! ## Claim C8: event-log loading -/

lemma load_trace_events_ok {evs : List JVal}
    (h : ∀ e ∈ evs, ∃ kvs, e = JVal.obj kvs ∧ (kvs.lookup "task").isSome) :
    ∃ xs, load_trace_events evs = Except.ok xs := by
  induction evs with
  | nil => exact ⟨[], rfl⟩
  | cons e es ih =>
    have hih := ih (fun x hx => h x (List.mem_cons_of_mem e hx))
    obtain ⟨kvs, rfl, htask⟩ := h e (List.mem_cons_self e es)
    obtain ⟨v, hv⟩ := Option.isSome_iff_exists.mp htask
    obtain ⟨xs, hxs⟩ := hih
    refine ⟨v :: xs, ?_⟩
    simp [load_trace_events, get_task, hv, hxs]

lemma load_traces_ok {ts : List JVal}
    (h : ∀ t ∈ ts, ∃ xs, load_trace t = Except.ok xs) :
    ∃ out, load_traces ts = Except.ok out := by
  induction ts with
  | nil => exact ⟨[], rfl⟩
  | cons t ts ih =>
    obtain ⟨xs, hxs⟩ := h t (List.mem_cons_self t ts)
    obtain ⟨out, hout⟩ := ih (fun x hx => h x (List.mem_cons_of_mem t hx))
    refine ⟨xs :: out, ?_⟩
    simp [load_traces, hxs, hout]

/-- Counterexample for C8 as stated: loading does not fail exactly on the
empty-or-not-a-collection-of-sequences inputs.  A non-empty collection of
sequences whose events are plain strings (the legacy log form) fails with
`TypeError`, while a list containing only a falsy non-sequence (`[0]`)
loads successfully as an empty log. -/
theorem load_exactness_counterexample :
    isSeqCollection (JVal.arr [JVal.arr [JVal.str "A"]]) ∧
    JVal.arr [JVal.arr [JVal.str "A"]] ≠ JVal.arr [] ∧
    load_event_log (JVal.arr [JVal.arr [JVal.str "A"]]) =
      Except.error PyError.typeError ∧
    ¬ isSeqCollection (JVal.arr [JVal.num 0]) ∧
    load_event_log (JVal.arr [JVal.num 0]) = Except.ok [] := by
  refine ⟨⟨[JVal.arr [JVal.str "A"]], rfl, ?_⟩, ?_, rfl, ?_, rfl⟩
  · intro t ht
    rw [List.mem_singleton] at ht
    exact ⟨[JVal.str "A"], ht⟩
  · intro h
    injection h with h'
    exact List.noConfusion h'
  · rintro ⟨ts, hts, hall⟩
    injection hts with h'
    subst h'
    obtain ⟨evs, hevs⟩ := hall (JVal.num 0) (List.mem_singleton.mpr rfl)
    exact JVal.noConfusion hevs

/-- Claim C8 (amended): an empty log and a non-list log are rejected with
`ValueError` (the role the spec names `InvalidLogError`), while a non-empty
list whose traces are all arrays of objects carrying a `"task"` field loads
successfully; failure is however not exactly characterized by
"empty or not a collection of sequences" (see the counterexample). -/
theorem load_validation :
    (load_event_log (JVal.arr []) = Except.error PyError.valueError) ∧
    (∀ j : JVal, (∀ xs, j ≠ JVal.arr xs) →
      load_event_log j = Except.error PyError.valueError) ∧
    (∀ ts : List JVal, ts ≠ [] →
      (∀ t ∈ ts, ∃ evs, t = JVal.arr evs ∧
        ∀ e ∈ evs, ∃ kvs, e = JVal.obj kvs ∧ (kvs.lookup "task").isSome) →
      ∃ out, load_event_log (JVal.arr ts) = Except.ok out) := by
  refine ⟨rfl, ?_, ?_⟩
  · intro j hj
    cases j with
    | null => rfl
    | bool b => rfl
    | num n => rfl
    | str s => rfl
    | arr xs => exact absurd rfl (hj xs)
    | obj fs => rfl
  · intro ts hne hwf
    have heq : load_event_log (JVal.arr ts) =
        if ts.isEmpty = true then Except.error PyError.valueError
        else load_traces (ts.filter truthy) := rfl
    rw [heq, if_neg (by simpa [List.isEmpty_iff] using hne)]
    apply load_traces_ok
    intro t ht
    obtain ⟨evs, rfl, hevs⟩ := hwf t (List.mem_of_mem_filter ht)
    exact load_trace_events_ok hevs

/-- Witness for C8 (amended): a non-list input is rejected and a
well-formed one-trace log loads. -/
theorem load_validation_witness :
    load_event_log (JVal.str "x") = Except.error PyError.valueError ∧
    (∃ out, load_event_log
      (JVal.arr [JVal.arr [JVal.obj [("task", JVal.str "A")]]]) = Except.ok out) :=
  ⟨load_validation.2.1 (JVal.str "x") (fun _ h => JVal.noConfusion h),
    load_validation.2.2 [JVal.arr [JVal.obj [("task", JVal.str "A")]]]
      (fun h => List.noConfusion h)
      (fun t ht => by
        rw [List.mem_singleton] at ht
        exact ⟨[JVal.obj [("task", JVal.str "A")]], ht,
          fun e he => by
            rw [List.mem_singleton] at he
            exact ⟨[("task", JVal.str "A")], he, rfl⟩⟩)⟩

end PM
